import Mathlib

/-!
# Verification of the `serde_seed` / `serde_state` core

This file gives a shallow embedding of the seeded-deserialization core of the
repository (crate root `src/serde_seed/src/lib.rs` and the decode test suite
`src/test_suite/tests/test_de_seed.rs`) and proves the specification's claims
about it.

Three sub-models are developed:

* the shared-node reconstruction protocol of `deserialize_option_node`
  (the `Plain` / `Marked(id)` / `Reference(id)` vocabulary over a
  `HashMap<u32, Rc<Node>>` registry),
* the context-threading protocol for seeded struct and sequence decoding and
  the encode-side counters of the crate-root doc example, and
* a generic composite-value round trip for the encode-side mirror.

Rust's `Rc` allocation is made explicit: the decode state carries a `store`
(the heap of `Rc`-allocated nodes; `Rc::new` appends a cell) and a handle is
the index of its cell, so handle equality in the model is exactly pointer
equality of `Rc` handles in the source.  All state is threaded through
errors exactly like a Rust `&mut` borrow: an `Err` return leaves the
mutations made so far in place.
-/

namespace SerdeState

/-- A decoded tree node, from `struct Node` in `test_de_seed.rs`:
`data: char`, `left`/`right`: `Option<Rc<Node>>`.  An `Rc<Node>` handle is
modelled as the address (index) of the node's cell in the store. -/
structure Node where
  data : Char
  left : Option Nat
  right : Option Nat
deriving DecidableEq

/-- State threaded through `deserialize_option_node`: the heap of
`Rc`-allocated nodes (`store`, one cell per `Rc::new` call) and the
reference registry (`seed : NodeMap = HashMap<u32, Rc<Node>>`), modelled as
an association list where `insert` conses and `get` returns the first match,
matching `HashMap::insert` (replace) / `HashMap::get` semantics. -/
structure DecodeState where
  store : List Node
  registry : List (Nat × Nat)
deriving DecidableEq

/-- `HashMap::get(&id)` on the registry: first (most recently inserted)
binding for `id`. -/
def regGet (st : DecodeState) (id : Nat) : Option Nat :=
  List.lookup id st.registry

/-- `seed.insert(id, Rc::clone(&node))`: record the binding.  A `HashMap`
insert replaces any existing binding for the same key, which the
first-match lookup over the consed list reproduces exactly. -/
def regInsert (id : Nat) (addr : Nat) (st : DecodeState) : DecodeState :=
  { st with registry := (id, addr) :: st.registry }

/-- `Rc::new(Node { .. })`: allocate a fresh cell, returning its address. -/
def alloc (st : DecodeState) (n : Node) : DecodeState × Nat :=
  ({ st with store := st.store ++ [n] }, st.store.length)

/-- Errors of the decode models.  `deserialize_option_node` fails with
`Error::custom(format_args!("missing id {}", id))`, an error carrying the
missing id, modelled by `referenceNotFound`; `invalidToken` stands for the
codec engine's own type-mismatch errors, and `recursionLimitExceeded` for
its recursion-depth guard. -/
inductive DecodeError where
  | referenceNotFound (id : Nat)
  | invalidToken
  | recursionLimitExceeded
deriving DecidableEq

/-- The wire form of one `Option<Rc<Node>>` field, i.e. the tree of tokens
consumed by `Option::<Variant>::deserialize_state`: `None`, or one of the
three arms of `enum Variant` with its own `left`/`right` sub-streams. -/
inductive NodeTok where
  | none
  | plain (data : Char) (left right : NodeTok)
  | marked (id : Nat) (data : Char) (left right : NodeTok)
  | reference (id : Nat)
deriving DecidableEq

/-- Does the token tree contain a `Marked` tag with this id? -/
def marksId (id : Nat) : NodeTok → Bool
  | .none => false
  | .plain _ l r => marksId id l || marksId id r
  | .marked i _ l r => id == i || marksId id l || marksId id r
  | .reference _ => false

/-- Does the token tree contain a `Reference` tag with this id? -/
def refsId (id : Nat) : NodeTok → Bool
  | .none => false
  | .plain _ l r => refsId id l || refsId id r
  | .marked _ _ l r => refsId id l || refsId id r
  | .reference i => i == id

/-- Is the token tree free of both `Marked` and `Reference` tags? -/
def noTags : NodeTok → Bool
  | .none => true
  | .plain _ l r => noTags l && noTags r
  | .marked _ _ _ _ => false
  | .reference _ => false

/-- `deserialize_option_node` from `test_de_seed.rs`.  The derived
`DeserializeState` impl for `enum Variant` decodes the chosen arm's fields in
declaration order (`id`, `data`, `left`, `right`), recursing into
`deserialize_option_node` for `left` then `right`; the match in
`deserialize_option_node` then constructs the node (`Rc::new`) and, in the
`Marked` arm only, inserts the handle into the registry *after*
construction. -/
def deserialize_option_node : NodeTok → DecodeState → DecodeState × Except DecodeError (Option Nat)
  | .none, st => (st, .ok Option.none)
  | .plain d l r, st =>
    match deserialize_option_node l st with
    | (st1, .error e) => (st1, .error e)
    | (st1, .ok la) =>
      match deserialize_option_node r st1 with
      | (st2, .error e) => (st2, .error e)
      | (st2, .ok ra) =>
        let (st3, a) := alloc st2 ⟨d, la, ra⟩
        (st3, .ok (some a))
  | .marked id d l r, st =>
    match deserialize_option_node l st with
    | (st1, .error e) => (st1, .error e)
    | (st1, .ok la) =>
      match deserialize_option_node r st1 with
      | (st2, .error e) => (st2, .error e)
      | (st2, .ok ra) =>
        let (st3, a) := alloc st2 ⟨d, la, ra⟩
        (regInsert id a st3, .ok (some a))
  | .reference id, st =>
    match regGet st id with
    | some a => (st, .ok (some a))
    | Option.none => (st, .error (.referenceNotFound id))

/-- The derived `DeserializeState` impl for the top-level `struct Node`
(fields `data`, then `left` and `right` via `deserialize_option_node`). -/
def deserializeNode (d : Char) (l r : NodeTok) (st : DecodeState) :
    DecodeState × Except DecodeError Node :=
  match deserialize_option_node l st with
  | (st1, .error e) => (st1, .error e)
  | (st1, .ok la) =>
    match deserialize_option_node r st1 with
    | (st2, .error e) => (st2, .error e)
    | (st2, .ok ra) => (st2, .ok ⟨d, la, ra⟩)

/-- Tokens of the flat tree-shaped stream (the serde data model restricted
to the token kinds the sources use: `serde_test::Token` and the JSON stream
of the crate-root doc example). -/
inductive Tok where
  | structB (name : String) (len : Nat)
  | structE
  | str (s : String)
  | unitStruct (name : String)
  | i32 (n : Int)
  | char (c : Char)
  | seqB (len : Option Nat)
  | seqE
  | variantB (name : String) (variant : String) (len : Nat)
  | variantE
  | optSome
  | optNone
deriving DecidableEq

/-- `Inner::deserialize` (derived, context-free): consumes a
`Token::UnitStruct { name: "Inner" }` from the stream. -/
def deserializeInner : List Tok → Except DecodeError (Unit × List Tok)
  | .unitStruct "Inner" :: ts => .ok ((), ts)
  | _ => .error .invalidToken

/-- `<Inner as DeserializeState<'de, Seed>>::deserialize_state` from the
test file: `seed.0 += 1;` *then* `Inner::deserialize(deserializer)`.  The
increment happens before the value is decoded, so it stays in the caller's
seed even when decoding the value fails. -/
def inner_deserialize_state (c : Int) (ts : List Tok) :
    Int × Except DecodeError (Unit × List Tok) :=
  (c + 1, deserializeInner ts)

/-- `deserialize_inner` from the test file: forwards to
`Inner::deserialize_state(seed.as_mut(), deserializer)`. -/
def deserialize_inner (c : Int) (ts : List Tok) :
    Int × Except DecodeError (Unit × List Tok) :=
  inner_deserialize_state c ts

/-- Modelled from the spec: the derived `DeserializeState` impl for
`SeedStruct` (the schema-to-traversal code generation is not under `src/`).
Fields are visited in declaration order with one sequentially reused
`&mut Seed` borrow: `value` in SeedPropagate mode
(`#[serde(deserialize_state)]`), `value2` through the custom function
`deserialize_inner` (`#[serde(deserialize_state_with)]`), `value3` with
plain context-free `Deserialize`. -/
def seedStruct_deserialize_state (c : Int) (ts : List Tok) :
    Int × Except DecodeError (Unit × Unit × Unit × List Tok) :=
  match ts with
  | .structB "SeedStruct" 3 :: .str "value" :: ts1 =>
    match inner_deserialize_state c ts1 with
    | (c1, .error e) => (c1, .error e)
    | (c1, .ok (v1, ts2)) =>
      match ts2 with
      | .str "value2" :: ts3 =>
        match deserialize_inner c1 ts3 with
        | (c2, .error e) => (c2, .error e)
        | (c2, .ok (v2, ts4)) =>
          match ts4 with
          | .str "value3" :: ts5 =>
            match deserializeInner ts5 with
            | .error e => (c2, .error e)
            | .ok (v3, ts6) =>
              match ts6 with
              | .structE :: ts7 => (c2, .ok (v1, v2, v3, ts7))
              | _ => (c2, .error .invalidToken)
          | _ => (c2, .error .invalidToken)
      | _ => (c1, .error .invalidToken)
  | _ => (c, .error .invalidToken)

/-- Modelled from the spec: `SeqSeedEx` (defined in the `serde_state::de`
module, which is not under `src/`) visits the elements of a sequence in
order, passing the one reused `&mut` borrow of the seed to every element —
element `i` sees the mutations of elements `0..i-1`. -/
def seqLoop {σ α : Type} (f : σ → List Tok → σ × Except DecodeError (α × List Tok)) :
    Nat → σ → List Tok → σ × Except DecodeError (List α × List Tok)
  | 0, c, ts => (c, .ok ([], ts))
  | n+1, c, ts =>
    match f c ts with
    | (c1, .error e) => (c1, .error e)
    | (c1, .ok (v, ts1)) =>
      match seqLoop f n c1 ts1 with
      | (c2, .error e) => (c2, .error e)
      | (c2, .ok (vs, ts2)) => (c2, .ok (v :: vs, ts2))

/-- `deserialize_vec` from the test file:
`deserializer.deserialize_seq(SeqSeedEx::new(&mut seed.0, Vec::with_capacity))` —
a sequence header with length hint, the seeded element codec run once per
element on the same borrow, then the sequence terminator. -/
def deserialize_vec (c : Int) (ts : List Tok) :
    Int × Except DecodeError (List Unit × List Tok) :=
  match ts with
  | .seqB (some n) :: ts1 =>
    match seqLoop inner_deserialize_state n c ts1 with
    | (c1, .error e) => (c1, .error e)
    | (c1, .ok (vs, ts2)) =>
      match ts2 with
      | .seqE :: ts3 => (c1, .ok (vs, ts3))
      | _ => (c1, .error .invalidToken)
  | _ => (c, .error .invalidToken)

/-- `impl SerializeSeed for Inner` from the crate-root doc example:
`seed.set(seed.get() + 1); self.serialize(serializer)`. -/
def inner_serialize_seed (c : Int) : List Tok × Int :=
  ([.unitStruct "Inner"], c + 1)

/-- `serialize_inner` from the crate-root doc example:
`seed.set(seed.get() + 10); self_.serialize(serializer)`. -/
def serialize_inner (c : Int) : List Tok × Int :=
  ([.unitStruct "Inner"], c + 10)

/-- `Inner`'s derived context-free `Serialize`: emits the unit-struct token
and leaves the seed alone. -/
def inner_serialize : List Tok := [.unitStruct "Inner"]

/-- Modelled from the spec: the derived `SerializeSeed` impl for the
crate-root doc example's four-field `Struct` (lib.rs lines 55–114): fields
in declaration order — `value` with `#[serde(serialize_seed)]` (+1),
`value2` with `#[serde(seed)]` (+1), `value3` plain (+0), `value4` with
`#[serde(serialize_seed_with = "serialize_inner")]` (+10). -/
def docStruct_serialize_seed (c : Int) : List Tok × Int :=
  let (t1, c1) := inner_serialize_seed c
  let (t2, c2) := inner_serialize_seed c1
  let t3 := inner_serialize
  let (t4, c4) := serialize_inner c2
  (Tok.structB "Struct" 4 :: Tok.str "value" :: t1 ++ Tok.str "value2" :: t2 ++
      Tok.str "value3" :: t3 ++ Tok.str "value4" :: t4 ++ [Tok.structE], c4)

/-- Modelled from the spec: the encode path of scenario A's three-field
struct exactly as the spec words it — `value` SeedPropagate (+1), `value2`
CustomFunction `serialize_inner` (+10), `value3` Plain (+0), visited in
declaration order. -/
def scenarioA_serialize_seed (c : Int) : List Tok × Int :=
  let (t1, c1) := inner_serialize_seed c
  let (t2, c2) := serialize_inner c1
  let t3 := inner_serialize
  (Tok.structB "Struct" 3 :: Tok.str "value" :: t1 ++ Tok.str "value2" :: t2 ++
      Tok.str "value3" :: t3 ++ [Tok.structE], c2)

mutual
/-- A composite value of the serde data model, for the generic round trip —
all composite kinds of the spec's data model: unit structs and scalars,
structs with named fields in declaration order, enum variants (only the
chosen arm's fields are present), sequences, and optionals. -/
inductive Value where
  | vunit (name : String)
  | vint (n : Int)
  | vchar (c : Char)
  | vstruct (name : String) (fields : ValueList)
  | venum (name : String) (variant : String) (fields : ValueList)
  | vseq (elems : ValueSeq)
  | vnone
  | vsome (v : Value)
/-- The ordered field list of a composite value: `(key, value)` pairs. -/
inductive ValueList where
  | nil
  | cons (key : String) (v : Value) (rest : ValueList)
/-- The ordered element list of a sequence value. -/
inductive ValueSeq where
  | nil
  | cons (v : Value) (rest : ValueSeq)
end

mutual
/-- Number of nodes of a composite value (used to bound the recursion
depth of the decoding descent). -/
def sizeV : Value → Nat
  | .vunit _ => 1
  | .vint _ => 1
  | .vchar _ => 1
  | .vstruct _ fs => sizeF fs + 1
  | .venum _ _ fs => sizeF fs + 1
  | .vseq es => sizeS es + 1
  | .vnone => 1
  | .vsome v => sizeV v + 1
/-- Number of nodes of a field list. -/
def sizeF : ValueList → Nat
  | .nil => 0
  | .cons _ v vs => sizeV v + sizeF vs + 1
/-- Number of nodes of an element list. -/
def sizeS : ValueSeq → Nat
  | .nil => 0
  | .cons v vs => sizeV v + sizeS vs + 1
end

/-- Number of fields of a field list. -/
def lenF : ValueList → Nat
  | .nil => 0
  | .cons _ _ vs => lenF vs + 1

/-- Number of elements of an element list. -/
def lenS : ValueSeq → Nat
  | .nil => 0
  | .cons _ vs => lenS vs + 1

mutual
/-- Modelled from the spec: the encode-side mirror
(`serialize_with_context`): emit the value's tokens in declaration order
while threading the single context, applying the configured context update
`f` at every leaf visit.  Seeded serialization emits exactly the same
tokens as plain serialization (`serialize_seed` mutates the seed and then
calls `self.serialize`). -/
def serializeValue {σ : Type} (f : σ → σ) : Value → σ → List Tok × σ
  | .vunit name, c => ([.unitStruct name], f c)
  | .vint n, c => ([.i32 n], f c)
  | .vchar ch, c => ([.char ch], f c)
  | .vstruct name fs, c =>
    let (ts, c1) := serializeFields f fs c
    (.structB name (lenF fs) :: ts ++ [.structE], c1)
  | .venum name variant fs, c =>
    let (ts, c1) := serializeFields f fs c
    (.variantB name variant (lenF fs) :: ts ++ [.variantE], c1)
  | .vseq es, c =>
    let (ts, c1) := serializeElems f es c
    (.seqB (some (lenS es)) :: ts ++ [.seqE], c1)
  | .vnone, c => ([.optNone], f c)
  | .vsome v, c =>
    let (ts, c1) := serializeValue f v c
    (.optSome :: ts, c1)
/-- Encode the fields of a composite in declaration order, key then value,
threading the context left to right. -/
def serializeFields {σ : Type} (f : σ → σ) : ValueList → σ → List Tok × σ
  | .nil, c => ([], c)
  | .cons key v vs, c =>
    let (ts1, c1) := serializeValue f v c
    let (ts2, c2) := serializeFields f vs c1
    (Tok.str key :: ts1 ++ ts2, c2)
/-- Encode the elements of a sequence in index order, threading the one
context borrow left to right. -/
def serializeElems {σ : Type} (f : σ → σ) : ValueSeq → σ → List Tok × σ
  | .nil, c => ([], c)
  | .cons v vs, c =>
    let (ts1, c1) := serializeValue f v c
    let (ts2, c2) := serializeElems f vs c1
    (ts1 ++ ts2, c2)
end

mutual
/-- Modelled from the spec: the decode direction of the context-threading
protocol over the flat stream — recursive descent, one value per call,
applying the configured context update `g` at every leaf visit.  The fuel
argument bounds the recursion depth (the codec engine's recursion guard)
and decreases at every recursive call. -/
def deserializeValue {σ : Type} (g : σ → σ) :
    Nat → List Tok → σ → σ × Except DecodeError (Value × List Tok)
  | 0, _, c => (c, .error .recursionLimitExceeded)
  | fuel+1, ts, c =>
    match ts with
    | .unitStruct name :: ts1 => (g c, .ok (.vunit name, ts1))
    | .i32 n :: ts1 => (g c, .ok (.vint n, ts1))
    | .char ch :: ts1 => (g c, .ok (.vchar ch, ts1))
    | .optNone :: ts1 => (g c, .ok (.vnone, ts1))
    | .optSome :: ts1 =>
      match deserializeValue g fuel ts1 c with
      | (c1, .error e) => (c1, .error e)
      | (c1, .ok (v, ts2)) => (c1, .ok (.vsome v, ts2))
    | .structB name len :: ts1 =>
      match deserializeFields g fuel len ts1 c with
      | (c1, .error e) => (c1, .error e)
      | (c1, .ok (fs, ts2)) =>
        match ts2 with
        | .structE :: ts3 => (c1, .ok (.vstruct name fs, ts3))
        | _ => (c1, .error .invalidToken)
    | .variantB name variant len :: ts1 =>
      match deserializeFields g fuel len ts1 c with
      | (c1, .error e) => (c1, .error e)
      | (c1, .ok (fs, ts2)) =>
        match ts2 with
        | .variantE :: ts3 => (c1, .ok (.venum name variant fs, ts3))
        | _ => (c1, .error .invalidToken)
    | .seqB (some n) :: ts1 =>
      match deserializeElems g fuel n ts1 c with
      | (c1, .error e) => (c1, .error e)
      | (c1, .ok (es, ts2)) =>
        match ts2 with
        | .seqE :: ts3 => (c1, .ok (.vseq es, ts3))
        | _ => (c1, .error .invalidToken)
    | _ => (c, .error .invalidToken)
/-- Decode `n` fields (key token, then value) in declaration order with the
one reused context borrow. -/
def deserializeFields {σ : Type} (g : σ → σ) :
    Nat → Nat → List Tok → σ → σ × Except DecodeError (ValueList × List Tok)
  | _, 0, ts, c => (c, .ok (.nil, ts))
  | 0, _+1, _, c => (c, .error .recursionLimitExceeded)
  | fuel+1, n+1, ts, c =>
    match ts with
    | .str key :: ts1 =>
      match deserializeValue g fuel ts1 c with
      | (c1, .error e) => (c1, .error e)
      | (c1, .ok (v, ts2)) =>
        match deserializeFields g fuel n ts2 c1 with
        | (c2, .error e) => (c2, .error e)
        | (c2, .ok (vs, ts3)) => (c2, .ok (.cons key v vs, ts3))
    | _ => (c, .error .invalidToken)
/-- Decode `n` sequence elements in index order with the one reused
context borrow. -/
def deserializeElems {σ : Type} (g : σ → σ) :
    Nat → Nat → List Tok → σ → σ × Except DecodeError (ValueSeq × List Tok)
  | _, 0, ts, c => (c, .ok (.nil, ts))
  | 0, _+1, _, c => (c, .error .recursionLimitExceeded)
  | fuel+1, n+1, ts, c =>
    match deserializeValue g fuel ts c with
    | (c1, .error e) => (c1, .error e)
    | (c1, .ok (v, ts2)) =>
      match deserializeElems g fuel n ts2 c1 with
      | (c2, .error e) => (c2, .error e)
      | (c2, .ok (vs, ts3)) => (c2, .ok (.cons v vs, ts3))
end

/-! ## Helper lemmas -/

/-- Decoding only ever appends fresh cells to the store: the Rust code never
mutates a node after `Rc::new`, it only allocates. -/
theorem store_extends (tok : NodeTok) (st : DecodeState) :
    ∃ ext, ((deserialize_option_node tok st).1).store = st.store ++ ext := by
  induction tok generalizing st with
  | none => exact ⟨[], by simp [deserialize_option_node]⟩
  | plain d l r ihl ihr =>
    obtain ⟨e1, h1⟩ := ihl st
    rcases hl : deserialize_option_node l st with ⟨st1, res1⟩
    have h1' : st1.store = st.store ++ e1 := by rw [hl] at h1; exact h1
    rcases res1 with e | la
    · exact ⟨e1, by simp [deserialize_option_node, hl, h1']⟩
    · obtain ⟨e2, h2⟩ := ihr st1
      rcases hr : deserialize_option_node r st1 with ⟨st2, res2⟩
      have h2' : st2.store = st1.store ++ e2 := by rw [hr] at h2; exact h2
      rcases res2 with e | ra
      · exact ⟨e1 ++ e2, by
          simp [deserialize_option_node, hl, hr, h2', h1', List.append_assoc]⟩
      · exact ⟨e1 ++ e2 ++ [⟨d, la, ra⟩], by
          simp [deserialize_option_node, hl, hr, alloc, h2', h1', List.append_assoc]⟩
  | marked id d l r ihl ihr =>
    obtain ⟨e1, h1⟩ := ihl st
    rcases hl : deserialize_option_node l st with ⟨st1, res1⟩
    have h1' : st1.store = st.store ++ e1 := by rw [hl] at h1; exact h1
    rcases res1 with e | la
    · exact ⟨e1, by simp [deserialize_option_node, hl, h1']⟩
    · obtain ⟨e2, h2⟩ := ihr st1
      rcases hr : deserialize_option_node r st1 with ⟨st2, res2⟩
      have h2' : st2.store = st1.store ++ e2 := by rw [hr] at h2; exact h2
      rcases res2 with e | ra
      · exact ⟨e1 ++ e2, by
          simp [deserialize_option_node, hl, hr, h2', h1', List.append_assoc]⟩
      · exact ⟨e1 ++ e2 ++ [⟨d, la, ra⟩], by
          simp [deserialize_option_node, hl, hr, alloc, regInsert, h2', h1',
            List.append_assoc]⟩
  | reference id =>
    rcases hg : regGet st id with _ | a
    · exact ⟨[], by simp [deserialize_option_node, hg]⟩
    · exact ⟨[], by simp [deserialize_option_node, hg]⟩

/-- A decode that contains no `Marked(id)` tag leaves the registry's answer
for `id` unchanged, whether it succeeds or fails. -/
theorem regGet_preserved (id : Nat) (tok : NodeTok) (st : DecodeState)
    (h : marksId id tok = false) :
    regGet ((deserialize_option_node tok st).1) id = regGet st id := by
  induction tok generalizing st with
  | none => simp [deserialize_option_node]
  | plain d l r ihl ihr =>
    simp only [marksId, Bool.or_eq_false_iff] at h
    rcases hl : deserialize_option_node l st with ⟨st1, res1⟩
    have hl' : regGet st1 id = regGet st id := by
      have := ihl st h.1; rw [hl] at this; exact this
    rcases res1 with e | la
    · simpa [deserialize_option_node, hl] using hl'
    · rcases hr : deserialize_option_node r st1 with ⟨st2, res2⟩
      have hr' : regGet st2 id = regGet st1 id := by
        have := ihr st1 h.2; rw [hr] at this; exact this
      rcases res2 with e | ra
      · simp [deserialize_option_node, hl, hr, hr', hl']
      · simp [deserialize_option_node, hl, hr, alloc, regGet] at *
        simp [hr', hl']
  | marked i d l r ihl ihr =>
    simp only [marksId, Bool.or_eq_false_iff] at h
    obtain ⟨⟨hne, hml⟩, hmr⟩ := h
    rcases hl : deserialize_option_node l st with ⟨st1, res1⟩
    have hl' : regGet st1 id = regGet st id := by
      have := ihl st hml; rw [hl] at this; exact this
    rcases res1 with e | la
    · simpa [deserialize_option_node, hl] using hl'
    · rcases hr : deserialize_option_node r st1 with ⟨st2, res2⟩
      have hr' : regGet st2 id = regGet st1 id := by
        have := ihr st1 hmr; rw [hr] at this; exact this
      rcases res2 with e | ra
      · simp [deserialize_option_node, hl, hr, hr', hl']
      · have hne' : (id == i) = false := hne
        simp [deserialize_option_node, hl, hr, alloc, regInsert, regGet,
          List.lookup, hne'] at *
        simp [hr', hl']
  | reference i =>
    rcases hg : regGet st i with _ | a
    · simp [deserialize_option_node, hg]
    · simp [deserialize_option_node, hg]

/-- Cells already allocated before a decode are untouched by it: a handle
keeps denoting the very same node instance. -/
theorem store_get_preserved (tok : NodeTok) (st : DecodeState) (i : Nat)
    (h : i < st.store.length) :
    ((deserialize_option_node tok st).1).store[i]? = st.store[i]? := by
  obtain ⟨ext, hext⟩ := store_extends tok st
  rw [hext, List.getElem?_append]
  simp [h]

/-- When a `Marked(id, …)` decode succeeds it returns the freshly allocated
handle and has registered exactly that handle under `id`. -/
theorem marked_success (id : Nat) (d : Char) (l r : NodeTok) (st st1 : DecodeState)
    (v : Option Nat)
    (h : deserialize_option_node (.marked id d l r) st = (st1, .ok v)) :
    ∃ a, v = some a ∧ regGet st1 id = some a ∧ a < st1.store.length := by
  rcases hl : deserialize_option_node l st with ⟨s1, res1⟩
  rcases res1 with e | la
  · simp [deserialize_option_node, hl] at h
  · rcases hr : deserialize_option_node r s1 with ⟨s2, res2⟩
    rcases res2 with e | ra
    · simp [deserialize_option_node, hl, hr] at h
    · simp only [deserialize_option_node, hl, hr, alloc, regInsert] at h
      injection h with hst hv
      subst hst
      injection hv with hv
      subst hv
      refine ⟨s2.store.length, rfl, ?_, ?_⟩
      · simp [regGet, List.lookup]
      · simp

/-! ## Claim theorems -/

/-- C1: in a decode where a `Marked(id, …)` token is decoded and a
`Reference(id)` token with the same id is decoded later (with no further
`Marked(id)` in between), the handle the reference returns is the very
handle the marked node returned: the same store address, whose cell is
unchanged — one construction and one allocation (the reference step returns
its state untouched), never a structurally equal copy. -/
theorem c1_identity_preservation (id : Nat) (d : Char) (l r tok2 : NodeTok)
    (st st1 st2 : DecodeState) (a : Nat) (res2 : Except DecodeError (Option Nat))
    (h1 : deserialize_option_node (.marked id d l r) st = (st1, .ok (some a)))
    (h2 : deserialize_option_node tok2 st1 = (st2, res2))
    (h3 : marksId id tok2 = false) :
    deserialize_option_node (.reference id) st2 = (st2, .ok (some a)) ∧
    st2.store[a]? = st1.store[a]? ∧ a < st1.store.length := by
  obtain ⟨b, hv, hreg, hlt⟩ := marked_success id d l r st st1 (some a) h1
  obtain rfl : a = b := by injection hv
  have hreg2 : regGet st2 id = some a := by
    have hp := regGet_preserved id tok2 st1 h3
    rw [h2] at hp
    rw [hp, hreg]
  refine ⟨by simp [deserialize_option_node, hreg2], ?_, hlt⟩
  have hs := store_get_preserved tok2 st1 a hlt
  rw [h2] at hs
  exact hs

/-- Witness for C1 at the scenario-B shape: `Marked(0, data: b)` then (after
an interleaved `None` field) `Reference(0)` returns handle `0`, the marked
node's own handle. -/
theorem c1_identity_preservation_witness :
    deserialize_option_node (.reference 0)
        ⟨[⟨'b', Option.none, Option.none⟩], [(0, 0)]⟩ =
      (⟨[⟨'b', Option.none, Option.none⟩], [(0, 0)]⟩, .ok (some 0)) ∧
    (⟨[⟨'b', Option.none, Option.none⟩], [(0, 0)]⟩ : DecodeState).store[0]? =
      (⟨[⟨'b', Option.none, Option.none⟩], [(0, 0)]⟩ : DecodeState).store[0]? ∧
    0 < (⟨[⟨'b', Option.none, Option.none⟩], [(0, 0)]⟩ : DecodeState).store.length :=
  c1_identity_preservation 0 'b' .none .none .none ⟨[], []⟩
    ⟨[⟨'b', Option.none, Option.none⟩], [(0, 0)]⟩
    ⟨[⟨'b', Option.none, Option.none⟩], [(0, 0)]⟩ 0 (.ok Option.none)
    rfl rfl rfl

/-- C2: decoding `Reference(id)` when the registry has no binding for `id`
(in particular after any prefix of the session that never decoded a
`Marked(id)` token, starting from the fresh registry of the top-level call)
fails with the error carrying the missing id; on a registry hit it succeeds
with the registered shared handle. -/
theorem c2_reference_lookup (id : Nat) (st : DecodeState) :
    (regGet st id = Option.none →
      deserialize_option_node (.reference id) st =
        (st, .error (.referenceNotFound id))) ∧
    (∀ a, regGet st id = some a →
      deserialize_option_node (.reference id) st = (st, .ok (some a))) ∧
    (∀ tok, marksId id tok = false →
      regGet ((deserialize_option_node tok ⟨[], []⟩).1) id = Option.none) := by
  refine ⟨fun h => by simp [deserialize_option_node, h],
    fun a h => by simp [deserialize_option_node, h], fun tok h => ?_⟩
  rw [regGet_preserved id tok ⟨[], []⟩ h]
  simp [regGet]

/-- Witness for C2: `Reference(9)` with `9` never marked fails with
`ReferenceNotFound(9)`. -/
theorem c2_reference_lookup_witness :
    deserialize_option_node (.reference 9) ⟨[], []⟩ =
      (⟨[], []⟩, .error (.referenceNotFound 9)) :=
  (c2_reference_lookup 9 ⟨[], []⟩).1 rfl

/-- C7 counterexample: the registry is a `HashMap` and `insert` *replaces*
an existing binding.  Decoding the single stream
`Node { data: a, left: Marked(0, x), right: Plain(c, Marked(0, y), Reference(0)) }`
first registers `0 ↦ handle 0` (node `x`), then a second `Marked(0)`
rebinds `0 ↦ handle 1` (node `y`), and the later `Reference(0)` resolves to
handle `1` — node `c`'s right child is handle `1`, not the first-registered
handle `0`, and the two nodes are distinct. -/
theorem c7_counterexample :
    deserializeNode 'a' (.marked 0 'x' .none .none)
        (.plain 'c' (.marked 0 'y' .none .none) (.reference 0)) ⟨[], []⟩ =
      (⟨[⟨'x', Option.none, Option.none⟩, ⟨'y', Option.none, Option.none⟩,
          ⟨'c', some 1, some 1⟩], [(0, 1), (0, 0)]⟩,
        .ok ⟨'a', some 0, some 2⟩) ∧
    regGet ⟨[⟨'x', Option.none, Option.none⟩], [(0, 0)]⟩ 0 = some 0 ∧
    (⟨'x', Option.none, Option.none⟩ : Node) ≠ ⟨'y', Option.none, Option.none⟩ :=
  ⟨rfl, rfl, by decide⟩

/-- C7 amended: a registered binding `(id ↦ handle)` is replaced only by a
later `Marked` with the same id; across any further decoding that contains
no `Marked(id)` the binding persists and every `Reference(id)` resolves to
it, already-allocated cells are never mutated, and an insert makes its own
handle the one the registry answers with (most-recent-wins, matching
`HashMap::insert`). -/
theorem c7_registry_latest_binding (id a : Nat) (tok : NodeTok)
    (st st1 : DecodeState) (res : Except DecodeError (Option Nat))
    (hbind : regGet st id = some a)
    (hnm : marksId id tok = false)
    (hdec : deserialize_option_node tok st = (st1, res)) :
    regGet st1 id = some a ∧
    (∀ i, i < st.store.length → st1.store[i]? = st.store[i]?) ∧
    (∀ b st2, regGet (regInsert id b st2) id = some b) := by
  refine ⟨?_, ?_, fun b st2 => by simp [regGet, regInsert, List.lookup]⟩
  · have hp := regGet_preserved id tok st hnm
    rw [hdec] at hp
    rw [hp, hbind]
  · intro i hi
    have hs := store_get_preserved tok st i hi
    rw [hdec] at hs
    exact hs

/-- Witness for the amended C7: a binding `0 ↦ 0` survives a decode step
that marks nothing. -/
theorem c7_registry_latest_binding_witness :
    regGet ⟨[⟨'x', Option.none, Option.none⟩], [(0, 0)]⟩ 0 = some 0 ∧
    (∀ i, i < (⟨[⟨'x', Option.none, Option.none⟩], [(0, 0)]⟩ : DecodeState).store.length →
      (⟨[⟨'x', Option.none, Option.none⟩], [(0, 0)]⟩ : DecodeState).store[i]? =
        (⟨[⟨'x', Option.none, Option.none⟩], [(0, 0)]⟩ : DecodeState).store[i]?) ∧
    (∀ b st2, regGet (regInsert 0 b st2) 0 = some b) :=
  c7_registry_latest_binding 0 0 .none
    ⟨[⟨'x', Option.none, Option.none⟩], [(0, 0)]⟩
    ⟨[⟨'x', Option.none, Option.none⟩], [(0, 0)]⟩ (.ok Option.none)
    rfl rfl rfl

/-- Inside a subtree that contains a `Reference(id)` but no `Marked(id)`,
decoding from a state whose registry has no binding for `id` cannot
succeed: the reference cannot resolve. -/
theorem unresolved_reference_fails (id : Nat) (tok : NodeTok) (st : DecodeState)
    (hm : marksId id tok = false) (hr : refsId id tok = true)
    (hg : regGet st id = Option.none) :
    ∃ e, (deserialize_option_node tok st).2 = .error e := by
  induction tok generalizing st with
  | none => simp [refsId] at hr
  | plain d l r ihl ihr =>
    simp only [marksId, Bool.or_eq_false_iff] at hm
    rcases hl : deserialize_option_node l st with ⟨st1, res1⟩
    rcases res1 with e | la
    · exact ⟨e, by simp [deserialize_option_node, hl]⟩
    · have hrl : refsId id l = false := by
        by_contra hc
        rw [Bool.not_eq_false] at hc
        obtain ⟨e, he⟩ := ihl st hm.1 hc hg
        rw [hl] at he
        simp at he
      have hrr : refsId id r = true := by
        simp only [refsId] at hr
        simpa [hrl] using hr
      have hg1 : regGet st1 id = Option.none := by
        have hp := regGet_preserved id l st hm.1
        rw [hl] at hp
        exact hp.trans hg
      obtain ⟨e, he⟩ := ihr st1 hm.2 hrr hg1
      rcases hrd : deserialize_option_node r st1 with ⟨st2, res2⟩
      rw [hrd] at he
      rcases res2 with e2 | ra
      · exact ⟨e2, by simp [deserialize_option_node, hl, hrd]⟩
      · simp at he
  | marked i d l r ihl ihr =>
    simp only [marksId, Bool.or_eq_false_iff] at hm
    obtain ⟨⟨hne, hml⟩, hmr⟩ := hm
    rcases hl : deserialize_option_node l st with ⟨st1, res1⟩
    rcases res1 with e | la
    · exact ⟨e, by simp [deserialize_option_node, hl]⟩
    · have hrl : refsId id l = false := by
        by_contra hc
        rw [Bool.not_eq_false] at hc
        obtain ⟨e, he⟩ := ihl st hml hc hg
        rw [hl] at he
        simp at he
      have hrr : refsId id r = true := by
        simp only [refsId] at hr
        simpa [hrl] using hr
      have hg1 : regGet st1 id = Option.none := by
        have hp := regGet_preserved id l st hml
        rw [hl] at hp
        exact hp.trans hg
      obtain ⟨e, he⟩ := ihr st1 hmr hrr hg1
      rcases hrd : deserialize_option_node r st1 with ⟨st2, res2⟩
      rw [hrd] at he
      rcases res2 with e2 | ra
      · exact ⟨e2, by simp [deserialize_option_node, hl, hrd]⟩
      · simp at he
  | reference i =>
    have hi : i = id := by simpa [refsId] using hr
    subst hi
    exact ⟨.referenceNotFound i, by simp [deserialize_option_node, hg]⟩

/-- C8: registry insertion for a `Marked(id, …)` node happens only after its
own fields are fully decoded and the node constructed; consequently a
`Reference(id)` occurring inside that node's own field subtrees (with no
nested re-marking of `id` and no prior binding for `id`) can never resolve —
the whole decode fails. -/
theorem c8_no_self_reference (id : Nat) (d : Char) (l r : NodeTok) (st : DecodeState)
    (hg : regGet st id = Option.none)
    (hml : marksId id l = false) (hmr : marksId id r = false)
    (href : (refsId id l || refsId id r) = true) :
    ∃ e, (deserialize_option_node (.marked id d l r) st).2 = .error e := by
  rcases hl : deserialize_option_node l st with ⟨st1, res1⟩
  rcases res1 with e | la
  · exact ⟨e, by simp [deserialize_option_node, hl]⟩
  · have hrl : refsId id l = false := by
      by_contra hc
      rw [Bool.not_eq_false] at hc
      obtain ⟨e, he⟩ := unresolved_reference_fails id l st hml hc hg
      rw [hl] at he
      simp at he
    have hrr : refsId id r = true := by simpa [hrl] using href
    have hg1 : regGet st1 id = Option.none := by
      have hp := regGet_preserved id l st hml
      rw [hl] at hp
      exact hp.trans hg
    obtain ⟨e, he⟩ := unresolved_reference_fails id r st1 hmr hrr hg1
    rcases hrd : deserialize_option_node r st1 with ⟨st2, res2⟩
    rw [hrd] at he
    rcases res2 with e2 | ra
    · exact ⟨e2, by simp [deserialize_option_node, hl, hrd]⟩
    · simp at he

/-- Witness for C8: `Marked(0, …)` whose own left field is `Reference(0)`
fails — in-progress self-reference never resolves. -/
theorem c8_no_self_reference_witness :
    ∃ e, (deserialize_option_node (.marked 0 'a' (.reference 0) .none) ⟨[], []⟩).2 =
      .error e :=
  c8_no_self_reference 0 'a' (.reference 0) .none ⟨[], []⟩ rfl rfl rfl rfl

/-- Decoding a tag-free (`Plain`-only) token tree always succeeds, leaves
the registry untouched, and only appends freshly allocated cells. -/
theorem noTags_decode (tok : NodeTok) (st : DecodeState) (h : noTags tok = true) :
    ∃ ext res, deserialize_option_node tok st = (⟨st.store ++ ext, st.registry⟩, .ok res) := by
  induction tok generalizing st with
  | none => exact ⟨[], Option.none, by simp [deserialize_option_node]⟩
  | plain d l r ihl ihr =>
    simp only [noTags, Bool.and_eq_true] at h
    obtain ⟨e1, r1, h1⟩ := ihl st h.1
    obtain ⟨e2, r2, h2⟩ := ihr ⟨st.store ++ e1, st.registry⟩ h.2
    exact ⟨e1 ++ e2 ++ [⟨d, r1, r2⟩], some ((st.store ++ e1 ++ e2).length), by
      simp [deserialize_option_node, h1, h2, alloc, List.append_assoc]⟩
  | marked i d l r ihl ihr => simp [noTags] at h
  | reference i => simp [noTags] at h

/-- C9 counterexample: the registry is *not* always left unchanged by the
decode of a `Plain(fields…)` value — a `Marked` tag nested in its fields
registers a binding during the recursive field decode. -/
theorem c9_counterexample :
    ((deserialize_option_node (.plain 'c' (.marked 0 'y' .none .none) .none)
        ⟨[], []⟩).1).registry = [(0, 0)] ∧
    ([(0, 0)] : List (Nat × Nat)) ≠ [] :=
  ⟨rfl, by decide⟩

/-- C9 amended: the `Plain` arm itself performs no registry lookup or
insertion — on success the final registry is exactly the registry produced
by recursively decoding its fields and the value is constructed with sole
ownership at a fresh address; when the fields contain no `Marked` or
`Reference` tags the registry is left completely unchanged and the decode
succeeds. -/
theorem c9_plain_no_registry_touch (d : Char) (l r : NodeTok) (st : DecodeState) :
    (∀ st1 st2 la ra,
      deserialize_option_node l st = (st1, .ok la) →
      deserialize_option_node r st1 = (st2, .ok ra) →
      deserialize_option_node (.plain d l r) st =
        (⟨st2.store ++ [⟨d, la, ra⟩], st2.registry⟩, .ok (some st2.store.length))) ∧
    (noTags l = true → noTags r = true →
      ∃ ext res, deserialize_option_node (.plain d l r) st =
        (⟨st.store ++ ext, st.registry⟩, .ok res)) := by
  constructor
  · intro st1 st2 la ra h1 h2
    simp [deserialize_option_node, h1, h2, alloc]
  · intro hl hr
    exact noTags_decode (.plain d l r) st (by simp [noTags, hl, hr])

/-- Witness for the amended C9: `Plain(a, None, None)` succeeds with a
fresh sole-ownership handle and the registry equal to the fields'. -/
theorem c9_plain_no_registry_touch_witness :
    deserialize_option_node (.plain 'a' .none .none) ⟨[], []⟩ =
      (⟨[⟨'a', Option.none, Option.none⟩], []⟩, .ok (some 0)) :=
  (c9_plain_no_registry_touch 'a' .none .none ⟨[], []⟩).1 ⟨[], []⟩ ⟨[], []⟩
    Option.none Option.none rfl rfl

/-- C10: a failing seeded decode does not roll back the context mutations
already performed.  `Inner::deserialize_state` increments the seed *before*
decoding the value, so even the failing field leaves its increment behind;
and decoding `SeedStruct` from a stream whose `value2` field is malformed
returns an error with the caller's seed at 2 (the increments of `value` and
of the failing `value2`), not reset to 0. -/
theorem c10_context_survives_failure :
    (∀ (c : Int) (ts : List Tok) (e : DecodeError),
      deserializeInner ts = .error e →
      inner_deserialize_state c ts = (c + 1, .error e)) ∧
    (seedStruct_deserialize_state 0
        [Tok.structB "SeedStruct" 3, Tok.str "value", Tok.unitStruct "Inner",
         Tok.str "value2", Tok.i32 5]).1 = 2 ∧
    (∃ e, (seedStruct_deserialize_state 0
        [Tok.structB "SeedStruct" 3, Tok.str "value", Tok.unitStruct "Inner",
         Tok.str "value2", Tok.i32 5]).2 = .error e) :=
  ⟨fun c ts e h => by simp [inner_deserialize_state, h], rfl, ⟨.invalidToken, rfl⟩⟩

/-- Witness for C10: the seeded `Inner` decode of a wrong token fails but
still returns the incremented seed. -/
theorem c10_context_survives_failure_witness :
    inner_deserialize_state 0 [Tok.i32 5] = (0 + 1, .error .invalidToken) :=
  c10_context_survives_failure.1 0 [Tok.i32 5] .invalidToken rfl

/-- C4 counterexample: encoding the three-field scenario-A struct (`value`
SeedPropagate +1, `value2` CustomFunction +10, `value3` Plain +0) from
Context = 0 leaves the context at 1 + 10 + 0 = 11, not 12 as claimed. -/
theorem c4_counterexample :
    (scenarioA_serialize_seed 0).2 = 11 ∧ (scenarioA_serialize_seed 0).2 ≠ 12 :=
  ⟨rfl, by decide⟩

/-- C4 amended: the three-field scenario-A encode from Context = 0 ends at
11; the final context 12 arises on the encode path of the crate-root doc
example's *four*-field struct (+1, +1, +0, +10); and decoding the stream
declaring three unit-valued fields from Context = 0, with
SeedPropagate/CustomFunction each adding 1 on the two relevant fields,
ends at 2. -/
theorem c4_scenario_a :
    (scenarioA_serialize_seed 0).2 = 11 ∧
    (docStruct_serialize_seed 0).2 = 12 ∧
    seedStruct_deserialize_state 0
        [Tok.structB "SeedStruct" 3, Tok.str "value", Tok.unitStruct "Inner",
         Tok.str "value2", Tok.unitStruct "Inner",
         Tok.str "value3", Tok.unitStruct "Inner", Tok.structE] =
      (2, .ok ((), (), (), [])) :=
  ⟨rfl, rfl, rfl⟩

/-- Running the seeded `Inner` element codec over `n` unit-struct tokens
with the one reused borrow accumulates `n` increments. -/
theorem seqLoop_inner (n : Nat) (c : Int) (ts : List Tok) :
    seqLoop inner_deserialize_state n c
        (List.replicate n (Tok.unitStruct "Inner") ++ ts) =
      (c + n, .ok (List.replicate n (), ts)) := by
  induction n generalizing c with
  | zero => simp [seqLoop]
  | succ n ih =>
    rw [List.replicate_succ, List.cons_append]
    simp only [seqLoop, inner_deserialize_state, deserializeInner]
    rw [ih (c + 1)]
    have hc : c + 1 + (n : Int) = c + ((n : Nat) + 1 : Nat) := by push_cast; ring
    rw [hc]
    simp [List.replicate_succ]

/-- C5: decoding a sequence of `M` elements, each in SeedPropagate mode with
the seeded `Inner` codec (which increments the counter by 1), reuses one
context borrow sequentially across all `M` elements: the final counter is
the initial counter plus exactly `M` — no per-element reset. -/
theorem c5_sequence_reuse (n : Nat) (c : Int) (rest : List Tok) :
    deserialize_vec c
        (Tok.seqB (some n) ::
          (List.replicate n (Tok.unitStruct "Inner") ++ Tok.seqE :: rest)) =
      (c + n, .ok (List.replicate n (), rest)) := by
  simp [deserialize_vec, seqLoop_inner n c (Tok.seqE :: rest)]

/-- If the first `k` elements of a sequence decode cleanly and element
`k + 1` fails, the whole sequence decode of any declared length `k + m + 1`
returns that element's error: the loop aborts at the first failure and
never decodes the remaining `m` elements. -/
theorem seqLoop_error_propagates {σ α : Type}
    (f : σ → List Tok → σ × Except DecodeError (α × List Tok))
    (k m : Nat) (c c1 c2 : σ) (ts ts1 : List Tok) (vs : List α) (e : DecodeError)
    (hok : seqLoop f k c ts = (c1, .ok (vs, ts1)))
    (herr : f c1 ts1 = (c2, .error e)) :
    seqLoop f (k + (m + 1)) c ts = (c2, .error e) := by
  induction k generalizing c ts vs with
  | zero =>
    simp only [seqLoop] at hok
    injection hok with h1 h2
    injection h2 with h2
    injection h2 with h2a h2b
    subst h1 h2a h2b
    rw [Nat.zero_add]
    simp [seqLoop, herr]
  | succ k ih =>
    rw [Nat.succ_add]
    rcases hf : f c ts with ⟨ca, resa⟩
    rcases resa with ea | va
    · rw [seqLoop, hf] at hok
      simp at hok
    · rcases va with ⟨v, tsa⟩
      rw [seqLoop, hf] at hok
      dsimp only at hok
      rcases hs : seqLoop f k ca tsa with ⟨cb, resb⟩
      rw [hs] at hok
      rcases resb with eb | vb
      · simp at hok
      · rcases vb with ⟨vs2, tsb⟩
        dsimp only at hok
        simp only [Prod.mk.injEq, Except.ok.injEq] at hok
        obtain ⟨rfl, rfl, rfl⟩ := hok
        have hrec := ih ca tsa vs2 hs
        rw [seqLoop, hf]
        dsimp only
        rw [hrec]

/-- C6: error propagation is strictly fail-fast.  An element error aborts
the whole sequence decode and is returned verbatim (no partial element list
is exposed), and an error while decoding a node's field subtree aborts the
enclosing `Plain`/`Marked` decode immediately (in particular the `Marked`
arm never constructs or registers its node). -/
theorem c6_fail_fast :
    (∀ (σ α : Type) (f : σ → List Tok → σ × Except DecodeError (α × List Tok))
        (k m : Nat) (c c1 c2 : σ) (ts ts1 : List Tok) (vs : List α) (e : DecodeError),
      seqLoop f k c ts = (c1, .ok (vs, ts1)) →
      f c1 ts1 = (c2, .error e) →
      seqLoop f (k + (m + 1)) c ts = (c2, .error e)) ∧
    (∀ (id : Nat) (d : Char) (l r : NodeTok) (st st1 : DecodeState) (e : DecodeError),
      deserialize_option_node l st = (st1, .error e) →
      deserialize_option_node (.plain d l r) st = (st1, .error e) ∧
      deserialize_option_node (.marked id d l r) st = (st1, .error e)) ∧
    (∀ (id : Nat) (d : Char) (l r : NodeTok) (st st1 st2 : DecodeState)
        (la : Option Nat) (e : DecodeError),
      deserialize_option_node l st = (st1, .ok la) →
      deserialize_option_node r st1 = (st2, .error e) →
      deserialize_option_node (.plain d l r) st = (st2, .error e) ∧
      deserialize_option_node (.marked id d l r) st = (st2, .error e)) := by
  refine ⟨fun σ α f k m c c1 c2 ts ts1 vs e hok herr =>
      seqLoop_error_propagates f k m c c1 c2 ts ts1 vs e hok herr,
    fun id d l r st st1 e h =>
      ⟨by simp [deserialize_option_node, h], by simp [deserialize_option_node, h]⟩,
    fun id d l r st st1 st2 la e h1 h2 =>
      ⟨by simp [deserialize_option_node, h1, h2],
       by simp [deserialize_option_node, h1, h2]⟩⟩

/-- Witness for C6: one clean element, then a malformed element token —
the two-element sequence decode returns the element's engine error. -/
theorem c6_fail_fast_witness :
    seqLoop inner_deserialize_state (1 + (0 + 1)) 0
        [Tok.unitStruct "Inner", Tok.i32 5] = (2, .error .invalidToken) :=
  c6_fail_fast.1 Int Unit inner_deserialize_state 1 0 0 1 2
    [Tok.unitStruct "Inner", Tok.i32 5] [Tok.i32 5] [()] .invalidToken rfl rfl

/-- Unfolding of the struct case of the encoder. -/
theorem serializeValue_vstruct {σ : Type} (f : σ → σ) (name : String)
    (fs : ValueList) (c : σ) :
    serializeValue f (.vstruct name fs) c =
      (Tok.structB name (lenF fs) :: (serializeFields f fs c).1 ++ [Tok.structE],
        (serializeFields f fs c).2) := by
  rw [serializeValue]

/-- Unfolding of the cons case of the field encoder. -/
theorem serializeFields_cons {σ : Type} (f : σ → σ) (key : String) (v : Value)
    (vs : ValueList) (c : σ) :
    serializeFields f (.cons key v vs) c =
      (Tok.str key :: (serializeValue f v c).1 ++
          (serializeFields f vs (serializeValue f v c).2).1,
        (serializeFields f vs (serializeValue f v c).2).2) := by
  rw [serializeFields]

/-- Unfolding of the enum-variant case of the encoder. -/
theorem serializeValue_venum {σ : Type} (f : σ → σ) (name variant : String)
    (fs : ValueList) (c : σ) :
    serializeValue f (.venum name variant fs) c =
      (Tok.variantB name variant (lenF fs) :: (serializeFields f fs c).1 ++
          [Tok.variantE],
        (serializeFields f fs c).2) := by
  rw [serializeValue]

/-- Unfolding of the sequence case of the encoder. -/
theorem serializeValue_vseq {σ : Type} (f : σ → σ) (es : ValueSeq) (c : σ) :
    serializeValue f (.vseq es) c =
      (Tok.seqB (some (lenS es)) :: (serializeElems f es c).1 ++ [Tok.seqE],
        (serializeElems f es c).2) := by
  rw [serializeValue]

/-- Unfolding of the optional-Some case of the encoder. -/
theorem serializeValue_vsome {σ : Type} (f : σ → σ) (v : Value) (c : σ) :
    serializeValue f (.vsome v) c =
      (Tok.optSome :: (serializeValue f v c).1, (serializeValue f v c).2) := by
  rw [serializeValue]

/-- Unfolding of the cons case of the element encoder. -/
theorem serializeElems_cons {σ : Type} (f : σ → σ) (v : Value)
    (vs : ValueSeq) (c : σ) :
    serializeElems f (.cons v vs) c =
      ((serializeValue f v c).1 ++
          (serializeElems f vs (serializeValue f v c).2).1,
        (serializeElems f vs (serializeValue f v c).2).2) := by
  rw [serializeElems]

/-- Round-trip auxiliary: with fuel exceeding the value's node count,
decoding the serialized tokens of a value (respectively a field list, an
element list) returns exactly that value (field list, element list) and the
untouched trailing stream, for every encode-side and decode-side context
configuration and every pair of starting contexts. -/
theorem roundTrip_aux {σ : Type} (f g : σ → σ) (fuel : Nat) :
    (∀ (v : Value) (c c0 : σ) (rest : List Tok), sizeV v < fuel →
      ∃ c1, deserializeValue g fuel ((serializeValue f v c).1 ++ rest) c0 =
        (c1, .ok (v, rest))) ∧
    (∀ (fs : ValueList) (c c0 : σ) (rest : List Tok), sizeF fs < fuel →
      ∃ c1, deserializeFields g fuel (lenF fs)
          ((serializeFields f fs c).1 ++ rest) c0 =
        (c1, .ok (fs, rest))) ∧
    (∀ (es : ValueSeq) (c c0 : σ) (rest : List Tok), sizeS es < fuel →
      ∃ c1, deserializeElems g fuel (lenS es)
          ((serializeElems f es c).1 ++ rest) c0 =
        (c1, .ok (es, rest))) := by
  induction fuel with
  | zero =>
    refine ⟨fun v c c0 rest h => ?_, fun fs c c0 rest h => ?_,
      fun es c c0 rest h => ?_⟩
    · omega
    · cases fs with
      | nil => exact ⟨c0, by simp [serializeFields, lenF, deserializeFields]⟩
      | cons key v vs => simp [sizeF] at h
    · cases es with
      | nil => exact ⟨c0, by simp [serializeElems, lenS, deserializeElems]⟩
      | cons v vs => simp [sizeS] at h
  | succ fuel ih =>
    obtain ⟨ihV, ihF, ihS⟩ := ih
    refine ⟨?_, ?_, ?_⟩
    · intro v c c0 rest h
      cases v with
      | vunit name => exact ⟨g c0, by simp [serializeValue, deserializeValue]⟩
      | vint n => exact ⟨g c0, by simp [serializeValue, deserializeValue]⟩
      | vchar ch => exact ⟨g c0, by simp [serializeValue, deserializeValue]⟩
      | vnone => exact ⟨g c0, by simp [serializeValue, deserializeValue]⟩
      | vsome v =>
        have hv : sizeV v < fuel := by
          simp only [sizeV] at h
          omega
        obtain ⟨c1, hdv⟩ := ihV v c c0 rest hv
        refine ⟨c1, ?_⟩
        rw [serializeValue_vsome]
        simp only [List.cons_append]
        simp only [deserializeValue]
        rw [hdv]
      | vstruct name fs =>
        have hs : sizeF fs < fuel := by
          simp only [sizeV] at h
          omega
        obtain ⟨c2, hdec⟩ := ihF fs c c0 (Tok.structE :: rest) hs
        refine ⟨c2, ?_⟩
        rw [serializeValue_vstruct]
        simp only [List.cons_append, List.append_assoc, List.singleton_append,
          List.nil_append]
        simp only [deserializeValue]
        rw [hdec]
      | venum name variant fs =>
        have hs : sizeF fs < fuel := by
          simp only [sizeV] at h
          omega
        obtain ⟨c2, hdec⟩ := ihF fs c c0 (Tok.variantE :: rest) hs
        refine ⟨c2, ?_⟩
        rw [serializeValue_venum]
        simp only [List.cons_append, List.append_assoc, List.singleton_append,
          List.nil_append]
        simp only [deserializeValue]
        rw [hdec]
      | vseq es =>
        have hs : sizeS es < fuel := by
          simp only [sizeV] at h
          omega
        obtain ⟨c2, hdec⟩ := ihS es c c0 (Tok.seqE :: rest) hs
        refine ⟨c2, ?_⟩
        rw [serializeValue_vseq]
        simp only [List.cons_append, List.append_assoc, List.singleton_append,
          List.nil_append]
        simp only [deserializeValue]
        rw [hdec]
    · intro fs c c0 rest h
      cases fs with
      | nil => exact ⟨c0, by simp [serializeFields, lenF, deserializeFields]⟩
      | cons key v vs =>
        have hv : sizeV v < fuel := by
          simp only [sizeF] at h
          omega
        have hf2 : sizeF vs < fuel := by
          simp only [sizeF] at h
          omega
        obtain ⟨c1, hdv⟩ := ihV v c c0
          ((serializeFields f vs (serializeValue f v c).2).1 ++ rest) hv
        obtain ⟨c2, hdf⟩ := ihF vs (serializeValue f v c).2 c1 rest hf2
        refine ⟨c2, ?_⟩
        rw [serializeFields_cons]
        simp only [lenF, List.cons_append, List.append_assoc]
        simp only [deserializeFields]
        rw [hdv]
        dsimp only
        rw [hdf]
    · intro es c c0 rest h
      cases es with
      | nil => exact ⟨c0, by simp [serializeElems, lenS, deserializeElems]⟩
      | cons v vs =>
        have hv : sizeV v < fuel := by
          simp only [sizeS] at h
          omega
        have hs2 : sizeS vs < fuel := by
          simp only [sizeS] at h
          omega
        obtain ⟨c1, hdv⟩ := ihV v c c0
          ((serializeElems f vs (serializeValue f v c).2).1 ++ rest) hv
        obtain ⟨c2, hdf⟩ := ihS vs (serializeValue f v c).2 c1 rest hs2
        refine ⟨c2, ?_⟩
        rw [serializeElems_cons]
        simp only [lenS, List.append_assoc]
        simp only [deserializeElems]
        rw [hdv]
        dsimp only
        rw [hdf]

/-- C3: round trip — for every composite value, encoding it with a context
under a propagation configuration (a context update applied at every leaf
visit) and decoding the produced token stream with a freshly initialized
context of the same shape (any starting context, any configured update)
yields a value structurally equal to the original, consuming exactly the
produced tokens. -/
theorem c3_round_trip {σ : Type} (f g : σ → σ) (v : Value) (c c0 : σ)
    (rest : List Tok) (fuel : Nat) (h : sizeV v < fuel) :
    ∃ c1, deserializeValue g fuel ((serializeValue f v c).1 ++ rest) c0 =
      (c1, .ok (v, rest)) :=
  (roundTrip_aux f g fuel).1 v c c0 rest h

/-- Witness for C3: a struct exercising every composite kind — a scalar
field, an optional-Some wrapping an enum variant, an optional-None, and a
sequence of two elements — encoded from context 0 with a +1 configuration,
decodes back to itself. -/
theorem c3_round_trip_witness :
    ∃ c1, deserializeValue (fun c => c + 1) 20
        ((serializeValue (fun c => c + 1)
            (.vstruct "Node"
              (.cons "data" (.vchar 'a')
                (.cons "left"
                  (.vsome (.venum "Node" "Reference" (.cons "id" (.vint 0) .nil)))
                  (.cons "right" .vnone
                    (.cons "kids"
                      (.vseq (.cons (.vunit "Inner") (.cons (.vint 3) .nil)))
                      .nil))))) (0 : Int)).1 ++ []) 0 =
      (c1, .ok (.vstruct "Node"
        (.cons "data" (.vchar 'a')
          (.cons "left"
            (.vsome (.venum "Node" "Reference" (.cons "id" (.vint 0) .nil)))
            (.cons "right" .vnone
              (.cons "kids"
                (.vseq (.cons (.vunit "Inner") (.cons (.vint 3) .nil)))
                .nil)))), [])) :=
  c3_round_trip (fun c => c + 1) (fun c => c + 1)
    (.vstruct "Node"
      (.cons "data" (.vchar 'a')
        (.cons "left"
          (.vsome (.venum "Node" "Reference" (.cons "id" (.vint 0) .nil)))
          (.cons "right" .vnone
            (.cons "kids"
              (.vseq (.cons (.vunit "Inner") (.cons (.vint 3) .nil)))
              .nil))))) 0 0 [] 20 (by decide)

end SerdeState
